import Mathlib

/-!
Shallow embedding of the recurrent-computation core of the TeachingTensorflow
notebooks, together with the layer-composition pattern of the
functional/subclassing notebook.

Numeric tensors are modelled as nested lists of real numbers:
a vector is a `List ℝ`, a matrix (batch of vectors, or a weight kernel)
is a `List (List ℝ)`.  `tf.nn.tanh` is `Real.tanh` applied elementwise.
-/

noncomputable section

abbrev Vec : Type := List ℝ

abbrev Mat : Type := List (List ℝ)

/-- `nth l j` is entry `j` of a vector, 0 past the end
(the total-function view of tensor indexing used in the statements). -/
def nth (l : Vec) (j : ℕ) : ℝ :=
  l.getD j 0

/-- Elementwise addition of two vectors (`+` on equal-shape tf tensors). -/
def vadd (u v : Vec) : Vec :=
  List.zipWith (· + ·) u v

/-- `tf.zeros` for a vector of length `n`. -/
def zeros (n : ℕ) : Vec :=
  List.replicate n 0

/-- `tf.zeros((m, n))`: an `m × n` matrix of zeros. -/
def zeroMat (m n : ℕ) : Mat :=
  List.replicate m (zeros n)

/-- A `tf.keras.layers.Dense(units, use_bias=False)` layer applied to a single
vector `x`: the product `x · K` of the row vector `x` with the kernel `K`
(kernel shape: input-dimension × units, stored as a list of rows). -/
def dense (K : Mat) (units : ℕ) (x : Vec) : Vec :=
  (List.zipWith (fun xi row => row.map (fun w => xi * w)) x K).foldr vadd (zeros units)

/-- The `CustomSimpleRNNCell` layer of the RNN notebook: its `units` count,
the kernel of `self.dense_input`, the kernel of `self.dense_hstate`, and
`self.bias`. -/
structure CustomSimpleRNNCell where
  units : ℕ
  kernelInput : Mat
  kernelHstate : Mat
  bias : Vec

/-- `CustomSimpleRNNCell.call` acting on one batch element: computes
`x_sum = self.dense_input(input_t) + self.dense_hstate(state) + self.bias`
and returns `tf.nn.tanh(x_sum)`. -/
def CustomSimpleRNNCell.callVec (c : CustomSimpleRNNCell) (x h : Vec) : Vec :=
  (vadd (vadd (dense c.kernelInput c.units x) (dense c.kernelHstate c.units h)) c.bias).map
    Real.tanh

/-- `CustomSimpleRNNCell.call` on a batch: `input_t` and `state` are matrices
whose rows are the batch elements; the dense layers act on each row, the bias
is broadcast over rows, and tanh is applied elementwise. -/
def CustomSimpleRNNCell.call (c : CustomSimpleRNNCell) (X S : Mat) : Mat :=
  ((List.zipWith vadd (X.map (dense c.kernelInput c.units))
      (S.map (dense c.kernelHstate c.units))).map (fun row => vadd row c.bias)).map
    (List.map Real.tanh)

/-! ### The sequence driver (`RNNWrapper`) -/

/-- A Python exception class, as far as the embedded code distinguishes them. -/
inductive PyError where
  | attributeError : PyError
  | typeError : PyError
  | valueError : PyError
deriving DecidableEq

/-- `tf.TensorArray(dtype=tf.float32, size=length)`: a fixed-size array of
tensors.  `size` is the declared size, `written` the elements written so far. -/
structure TensorArray where
  size : ℕ
  written : List Mat

/-- `TensorArray.stack()`: the written elements stacked along a new axis 0. -/
def TensorArray.stack (ta : TensorArray) : List Mat :=
  ta.written

/-- The attempted call `hidden_states.append(state)` of `RNNWrapper.call`.
`tf.TensorArray` exposes `write`, `read`, `stack`, `unstack`, `gather`,
`scatter`, `concat`, `split`, `size` and `close` — it has no `append`
method, so Python attribute lookup raises `AttributeError` before anything
is stored.  (The correct `hidden_states.write(t, state)` is commented out
in the notebook.) -/
def TensorArray.appendCall (_ta : TensorArray) (_m : Mat) : Except PyError TensorArray :=
  Except.error PyError.attributeError

/-- `data.shape[1]` for a (rectangular) batch-major tensor given as nested
lists: the length of the first batch element's sequence. -/
def shape1 (data : List (List Vec)) : ℕ :=
  (data.getD 0 []).length

/-- `data[:, t, :]`: the matrix whose rows are each batch element's input
vector at time step `t`. -/
def timeSlice (data : List (List Vec)) (t : ℕ) : Mat :=
  data.map (fun seq => seq.getD t [])

/-- The ordered list of time slices `data[:, 0, :], …, data[:, T-1, :]`. -/
def timeSlices (data : List (List Vec)) (T : ℕ) : List Mat :=
  (List.range T).map (timeSlice data)

/-- `tf.transpose(·, [1, 0, 2])` on a time-major `T × B × H` stack:
the batch-major `B × T × H` tensor. -/
def transpose102 (L : List Mat) : List Mat :=
  (List.range ((L.getD 0 []).length)).map (fun i => L.map (fun m => m.getD i []))

/-- The `RNNWrapper` layer: the `return_sequences` flag and the wrapped cell. -/
structure RNNWrapper where
  return_sequences : Bool
  cell : CustomSimpleRNNCell

/-- The `for t in tf.range(length)` loop of `RNNWrapper.call`, over the list
of time slices: updates the state with the cell at each step and, when
`return_sequences` is set, attempts `hidden_states.append(state)` (which
raises).  A raised exception aborts the loop and propagates. -/
def RNNWrapper.loop (self : RNNWrapper) (S : Mat) (ta : TensorArray) :
    List Mat → Except PyError (Mat × TensorArray)
  | [] => Except.ok (S, ta)
  | X :: rest =>
    let S1 := self.cell.call X S
    if self.return_sequences then
      match TensorArray.appendCall ta S1 with
      | Except.error e => Except.error e
      | Except.ok ta1 => RNNWrapper.loop self S1 ta1 rest
    else
      RNNWrapper.loop self S1 ta rest

/-- `RNNWrapper.call(data)`: initializes the state to
`tf.zeros((data.shape[0], self.cell.units))`, runs the loop over all time
steps, and returns either the stacked-and-transposed hidden states
(`return_sequences=True`, a `B × T × H` tensor) or the final state
(`return_sequences=False`, a `B × H` tensor). -/
def RNNWrapper.call (self : RNNWrapper) (data : List (List Vec)) :
    Except PyError (Mat ⊕ List Mat) :=
  let T := shape1 data
  let S0 := zeroMat data.length self.cell.units
  match self.loop S0 (TensorArray.mk T []) (timeSlices data T) with
  | Except.error e => Except.error e
  | Except.ok (Sfin, ta) =>
    if self.return_sequences then Except.ok (Sum.inr (transpose102 ta.stack))
    else Except.ok (Sum.inl Sfin)

/-- Calling the layer object, with the object state threaded through: the
method body of `RNNWrapper.call` reads `self` but never assigns to it, so
the object comes back unchanged alongside the return value. -/
def RNNWrapper.callState (self : RNNWrapper) (data : List (List Vec)) :
    RNNWrapper × Except PyError (Mat ⊕ List Mat) :=
  (self, self.call data)

/-- The state held by the loop after each time step: `S0` updated by the
cell on each successive time slice (the value of the loop variable `state`
after step 0, 1, …). -/
def scanStates (c : CustomSimpleRNNCell) (S0 : Mat) : List Mat → List Mat
  | [] => []
  | X :: rest =>
    let S1 := c.call X S0
    S1 :: scanStates c S1 rest

/-- The state after all time steps: the loop's final `state` value. -/
def finalState (c : CustomSimpleRNNCell) (S0 : Mat) (slices : List Mat) : Mat :=
  slices.foldl (fun S X => c.call X S) S0

/-- Modelled from the spec: the spec's sequence driver additionally accepts
an initial state (`RNNWrapper.call` itself exposes no such argument), and in
final-state mode returns the state reached from that initial state after all
time steps. -/
def driverFromInit (c : CustomSimpleRNNCell) (S0 : Mat) (data : List (List Vec)) : Mat :=
  finalState c S0 (timeSlices data (shape1 data))

/-! ### Shape-checked step function

Modelled from the spec: the dimension checks themselves live in TensorFlow's
kernels (matmul and `+` refuse incompatible static shapes), not in the
notebook's Python, so the checked variants below attach the framework's
shape validation to the linear-algebra operations of
`CustomSimpleRNNCell.call`, per the spec's error-handling section. -/

/-- Modelled from the spec: a dense layer call that, like TensorFlow's
matmul, fails (returns `none`) unless the input length matches the kernel's
row count and every kernel row has the layer's `units` length. -/
def denseChecked (K : Mat) (units : ℕ) (x : Vec) : Option Vec :=
  if x.length = K.length ∧ ∀ r ∈ K, r.length = units then some (dense K units x) else none

/-- Modelled from the spec: elementwise addition that, like `+` on tf
tensors of fixed rank-1 shapes, fails unless the two lengths agree
(no silent broadcasting across incompatible shapes). -/
def vaddChecked (u v : Vec) : Option Vec :=
  if u.length = v.length then some (vadd u v) else none

/-- `CustomSimpleRNNCell.call` on one batch element with the framework's
shape checks attached to each linear-algebra operation: any dimension
mismatch aborts the computation with no result. -/
def CustomSimpleRNNCell.callVecChecked (c : CustomSimpleRNNCell) (x h : Vec) : Option Vec :=
  match denseChecked c.kernelInput c.units x with
  | none => none
  | some u =>
    match denseChecked c.kernelHstate c.units h with
    | none => none
    | some v =>
      match vaddChecked u v with
      | none => none
      | some s =>
        match vaddChecked s c.bias with
        | none => none
        | some s2 => some (s2.map Real.tanh)

/-! ### The composite layer of the functional/subclassing notebook -/

/-- A Keras layer as `CompositeLayer.call` interacts with it: invoking it
with `(data, training)` and invoking it with `data` alone are two distinct
operations, each of which either returns transformed data or raises. -/
structure PyLayer (α : Type) where
  callTraining : α → Bool → Except PyError α
  callPlain : α → Except PyError α

/-- The `CompositeLayer` of the functional/subclassing notebook: a list of
layers applied sequentially. -/
structure CompositeLayer (α : Type) where
  layer_list : List (PyLayer α)

/-- One iteration of the loop body of `CompositeLayer.call`:
`try: x = layer(x, training)` and, if that raises anything, `x = layer(x)`
(a raise from the fallback call itself propagates). -/
def CompositeLayer.applyLayer {α : Type} (layer : PyLayer α) (x : α) (training : Bool) :
    Except PyError α :=
  match layer.callTraining x training with
  | Except.ok y => Except.ok y
  | Except.error _ => layer.callPlain x

/-- The loop of `CompositeLayer.call` over a remaining list of layers. -/
def CompositeLayer.callFrom {α : Type} (layers : List (PyLayer α)) (x : α) (training : Bool) :
    Except PyError α :=
  match layers with
  | [] => Except.ok x
  | layer :: rest =>
    match CompositeLayer.applyLayer layer x training with
    | Except.ok y => CompositeLayer.callFrom rest y training
    | Except.error e => Except.error e

/-- `CompositeLayer.call(x, training)`: apply the layers from the list
sequentially, each via the try/except pattern. -/
def CompositeLayer.call {α : Type} (self : CompositeLayer α) (x : α) (training : Bool) :
    Except PyError α :=
  CompositeLayer.callFrom self.layer_list x training

/-- A concrete layer whose `(data, training)` invocation always raises
`TypeError` and whose data-only invocation increments its input. -/
def incLayer : PyLayer ℕ :=
  ⟨fun _ _ => Except.error PyError.typeError, fun n => Except.ok (n + 1)⟩

/-! ### Basic list lemmas -/

theorem nth_nil (j : ℕ) : nth [] j = 0 := by
  cases j <;> rfl

theorem nth_cons_zero (a : ℝ) (l : Vec) : nth (a :: l) 0 = a := rfl

theorem nth_cons_succ (a : ℝ) (l : Vec) (j : ℕ) : nth (a :: l) (j + 1) = nth l j := rfl

theorem nth_zeros (n j : ℕ) : nth (zeros n) j = 0 := by
  induction n generalizing j with
  | zero => exact nth_nil j
  | succ n ih =>
    cases j with
    | zero => rfl
    | succ j => exact ih j

theorem length_vadd (u v : Vec) : (vadd u v).length = min u.length v.length := by
  simp [vadd]

theorem length_zeros (n : ℕ) : (zeros n).length = n := by
  simp [zeros]

theorem nth_vadd (u v : Vec) (j : ℕ) (hu : j < u.length) (hv : j < v.length) :
    nth (vadd u v) j = nth u j + nth v j := by
  induction u generalizing v j with
  | nil => simp at hu
  | cons a u ih =>
    cases v with
    | nil => simp at hv
    | cons b v =>
      cases j with
      | zero => rfl
      | succ j =>
        have : nth (vadd (a :: u) (b :: v)) (j + 1) = nth (vadd u v) j := rfl
        rw [this, nth_cons_succ, nth_cons_succ]
        exact ih v j (Nat.lt_of_succ_lt_succ hu) (Nat.lt_of_succ_lt_succ hv)

theorem nth_map (f : ℝ → ℝ) (l : Vec) (j : ℕ) (hj : j < l.length) :
    nth (l.map f) j = f (nth l j) := by
  induction l generalizing j with
  | nil => simp at hj
  | cons a l ih =>
    cases j with
    | zero => rfl
    | succ j => exact ih j (Nat.lt_of_succ_lt_succ hj)

theorem length_dense (K : Mat) (units : ℕ) (x : Vec)
    (hK : ∀ r ∈ K, r.length = units) : (dense K units x).length = units := by
  induction x generalizing K with
  | nil => simp [dense, length_zeros]
  | cons xi x ih =>
    cases K with
    | nil => simp [dense, length_zeros]
    | cons r K =>
      have hr : r.length = units := hK r (by simp)
      have hrest : (dense K units x).length = units :=
        ih K (fun s hs => hK s (by simp [hs]))
      have : dense (r :: K) units (xi :: x) =
          vadd (r.map (fun w => xi * w)) (dense K units x) := rfl
      rw [this, length_vadd, List.length_map, hr, hrest, min_self]

theorem nth_dense (K : Mat) (units : ℕ) (x : Vec) (j : ℕ)
    (hK : ∀ r ∈ K, r.length = units) (hj : j < units) :
    nth (dense K units x) j =
      ∑ i in Finset.range (min x.length K.length), nth x i * nth (K.getD i []) j := by
  induction x generalizing K with
  | nil => simp [dense, nth_zeros]
  | cons xi x ih =>
    cases K with
    | nil =>
      simp [dense, nth_zeros]
    | cons r K =>
      have hr : r.length = units := hK r (by simp)
      have hrest : ∀ s ∈ K, s.length = units := fun s hs => hK s (by simp [hs])
      have hstep : dense (r :: K) units (xi :: x) =
          vadd (r.map (fun w => xi * w)) (dense K units x) := rfl
      have h1 : nth (vadd (r.map (fun w => xi * w)) (dense K units x)) j =
          nth (r.map (fun w => xi * w)) j + nth (dense K units x) j := by
        apply nth_vadd
        · rw [List.length_map, hr]; exact hj
        · rw [length_dense K units x hrest]; exact hj
      have h2 : nth (r.map (fun w => xi * w)) j = xi * nth r j := by
        apply nth_map; rw [hr]; exact hj
      rw [hstep, h1, h2, ih K hrest]
      have hmin : min (xi :: x).length (r :: K).length = min x.length K.length + 1 := by
        simp [Nat.succ_min_succ]
      rw [hmin, Finset.sum_range_succ']
      simp only [nth_cons_succ, List.getD_cons_succ, nth_cons_zero, List.getD_cons_zero]
      ring

/-! ### The per-example step function (claim C1) -/

/-- C1: for an input vector of length D, a state vector of length H, a D×H
input-to-state kernel, an H×H state-to-state kernel and a bias of length H,
`CustomSimpleRNNCell.call` (per batch element) returns the length-H vector
whose j-th entry is `tanh((x·W1)_j + (h·W2)_j + b_j)`. -/
theorem cell_step_is_tanh_of_affine (D H : ℕ) (W1 W2 : Mat) (b x h : Vec)
    (hx : x.length = D) (hh : h.length = H)
    (hW1 : W1.length = D) (hW1r : ∀ r ∈ W1, r.length = H)
    (hW2 : W2.length = H) (hW2r : ∀ r ∈ W2, r.length = H)
    (hb : b.length = H) :
    (CustomSimpleRNNCell.callVec ⟨H, W1, W2, b⟩ x h).length = H ∧
    ∀ j, j < H → nth (CustomSimpleRNNCell.callVec ⟨H, W1, W2, b⟩ x h) j =
      Real.tanh ((∑ i in Finset.range D, nth x i * nth (W1.getD i []) j) +
        (∑ i in Finset.range H, nth h i * nth (W2.getD i []) j) + nth b j) := by
  have hd1 : (dense W1 H x).length = H := length_dense W1 H x hW1r
  have hd2 : (dense W2 H h).length = H := length_dense W2 H h hW2r
  have hv1 : (vadd (dense W1 H x) (dense W2 H h)).length = H := by
    rw [length_vadd, hd1, hd2, min_self]
  have hv2 : (vadd (vadd (dense W1 H x) (dense W2 H h)) b).length = H := by
    rw [length_vadd, hv1, hb, min_self]
  constructor
  · show ((vadd (vadd (dense W1 H x) (dense W2 H h)) b).map Real.tanh).length = H
    rw [List.length_map, hv2]
  · intro j hj
    show nth ((vadd (vadd (dense W1 H x) (dense W2 H h)) b).map Real.tanh) j = _
    rw [nth_map Real.tanh _ j (by rw [hv2]; exact hj)]
    rw [nth_vadd _ _ j (by rw [hv1]; exact hj) (by rw [hb]; exact hj)]
    rw [nth_vadd _ _ j (by rw [hd1]; exact hj) (by rw [hd2]; exact hj)]
    rw [nth_dense W1 H x j hW1r hj, nth_dense W2 H h j hW2r hj]
    rw [hx, hW1, min_self, hh, hW2, min_self]

/-- In final-state mode the loop never touches the tensor array and computes
the left fold of the cell over the time slices. -/
theorem loop_false (c : CustomSimpleRNNCell) (S : Mat) (ta : TensorArray)
    (slices : List Mat) :
    RNNWrapper.loop ⟨false, c⟩ S ta slices = Except.ok (finalState c S slices, ta) := by
  induction slices generalizing S with
  | nil => rfl
  | cons X rest ih =>
    show RNNWrapper.loop ⟨false, c⟩ S ta (X :: rest) = _
    rw [RNNWrapper.loop]
    simp only [Bool.false_eq_true, if_false]
    rw [ih]
    rfl

/-- In final-state mode `RNNWrapper.call` returns the fold of the cell over
the time slices, started from the zero state. -/
theorem call_false (c : CustomSimpleRNNCell) (data : List (List Vec)) :
    RNNWrapper.call ⟨false, c⟩ data =
      Except.ok (Sum.inl (finalState c (zeroMat data.length c.units)
        (timeSlices data (shape1 data)))) := by
  show (match RNNWrapper.loop ⟨false, c⟩ (zeroMat data.length c.units)
      (TensorArray.mk (shape1 data) []) (timeSlices data (shape1 data)) with
    | Except.error e => Except.error e
    | Except.ok (Sfin, ta) =>
      if (false : Bool) then Except.ok (Sum.inr (transpose102 ta.stack))
      else Except.ok (Sum.inl Sfin)) = _
  rw [loop_false]
  rfl

/-- In all-states mode the loop raises `AttributeError` on the very first
time step: `tf.TensorArray` has no `append` method. -/
theorem loop_true_raises (c : CustomSimpleRNNCell) (S : Mat) (ta : TensorArray)
    (X : Mat) (rest : List Mat) :
    RNNWrapper.loop ⟨true, c⟩ S ta (X :: rest) = Except.error PyError.attributeError := rfl

/-- C2 (code bug): on a 1×1×1 input, final-state mode returns the fold of
the cell over the single time step, while all-states mode raises
`AttributeError` instead of returning the ordered states: the line
`hidden_states.append(state)` calls a method `tf.TensorArray` does not have
(the correct `write` call is commented out). -/
theorem return_sequences_mode_raises :
    RNNWrapper.call ⟨true, ⟨1, [[1]], [[1]], [0]⟩⟩ [[[1]]] =
      Except.error PyError.attributeError ∧
    RNNWrapper.call ⟨false, ⟨1, [[1]], [[1]], [0]⟩⟩ [[[1]]] =
      Except.ok (Sum.inl (CustomSimpleRNNCell.call ⟨1, [[1]], [[1]], [0]⟩ [[1]] [[0]])) :=
  ⟨rfl, rfl⟩

/-- C3 (code bug): on a 1×1×1 input, all-states mode produces no output at
all (it raises `AttributeError`), so its last element cannot equal the
final-state mode output, which is an ordinary value. -/
theorem last_state_claim_blocked_by_crash :
    RNNWrapper.call ⟨true, ⟨1, [[2]], [[1]], [0]⟩⟩ [[[2]]] =
      Except.error PyError.attributeError ∧
    RNNWrapper.call ⟨false, ⟨1, [[2]], [[1]], [0]⟩⟩ [[[2]]] =
      Except.ok (Sum.inl (CustomSimpleRNNCell.call ⟨1, [[2]], [[1]], [0]⟩ [[2]] [[0]])) :=
  ⟨rfl, rfl⟩

/-- C5: the driver is a deterministic function of the object and its input.
Calling the layer twice in a row on the same data leaves the object
unchanged and returns equal outputs both times: the method reads `self`
(weights, bias, flag) but never writes it, and uses no other source of
variation. -/
theorem call_deterministic (self : RNNWrapper) (data : List (List Vec)) :
    ((self.callState data).1.callState data).2 = (self.callState data).2 ∧
    ((self.callState data).1.callState data).1 = self := ⟨rfl, rfl⟩

/-- Witness for C1 at D = 2, H = 3, concrete weights and inputs. -/
theorem cell_step_is_tanh_of_affine_witness :
    (CustomSimpleRNNCell.callVec ⟨3, [[1, 0, 0], [0, 1, 0]], [[0, 0, 0], [0, 0, 0], [0, 0, 0]],
        [0, 0, 0]⟩ [1, 2] [0, 0, 0]).length = 3 ∧
    nth (CustomSimpleRNNCell.callVec ⟨3, [[1, 0, 0], [0, 1, 0]],
        [[0, 0, 0], [0, 0, 0], [0, 0, 0]], [0, 0, 0]⟩ [1, 2] [0, 0, 0]) 0 =
      Real.tanh ((∑ i in Finset.range 2,
          nth [1, 2] i * nth (([[1, 0, 0], [0, 1, 0]] : Mat).getD i []) 0) +
        (∑ i in Finset.range 3,
          nth [0, 0, 0] i * nth (([[0, 0, 0], [0, 0, 0], [0, 0, 0]] : Mat).getD i []) 0) +
        nth [0, 0, 0] 0) := by
  have h := cell_step_is_tanh_of_affine 2 3 [[1, 0, 0], [0, 1, 0]]
    [[0, 0, 0], [0, 0, 0], [0, 0, 0]] [0, 0, 0] [1, 2] [0, 0, 0]
    rfl rfl rfl
    (by intro r hr
        simp only [List.mem_cons, List.not_mem_nil, or_false] at hr
        rcases hr with rfl | rfl <;> rfl)
    rfl
    (by intro r hr
        simp only [List.mem_cons, List.not_mem_nil, or_false] at hr
        rcases hr with rfl | rfl | rfl <;> rfl)
    rfl
  exact ⟨h.1, h.2 0 (by norm_num)⟩

/-! ### Shape checking (claim C4) -/

/-- The shape-checked step function succeeds exactly when every dimension
matches, and then computes the unchecked step value. -/
theorem callVecChecked_eq (c : CustomSimpleRNNCell) (x h : Vec) :
    c.callVecChecked x h =
      if x.length = c.kernelInput.length ∧ (∀ r ∈ c.kernelInput, r.length = c.units) ∧
          h.length = c.kernelHstate.length ∧ (∀ r ∈ c.kernelHstate, r.length = c.units) ∧
          c.bias.length = c.units
      then some (c.callVec x h) else none := by
  obtain ⟨H, K1, K2, b⟩ := c
  by_cases h1 : x.length = K1.length ∧ ∀ r ∈ K1, r.length = H
  · by_cases h2 : h.length = K2.length ∧ ∀ r ∈ K2, r.length = H
    · have e1 : denseChecked K1 H x = some (dense K1 H x) := by
        rw [denseChecked, if_pos h1]
      have e2 : denseChecked K2 H h = some (dense K2 H h) := by
        rw [denseChecked, if_pos h2]
      have lu : (dense K1 H x).length = H := length_dense K1 H x h1.2
      have lv : (dense K2 H h).length = H := length_dense K2 H h h2.2
      have e3 : vaddChecked (dense K1 H x) (dense K2 H h) =
          some (vadd (dense K1 H x) (dense K2 H h)) := by
        rw [vaddChecked, if_pos (lu.trans lv.symm)]
      have ls : (vadd (dense K1 H x) (dense K2 H h)).length = H := by
        rw [length_vadd, lu, lv, min_self]
      by_cases hb : b.length = H
      · have e4 : vaddChecked (vadd (dense K1 H x) (dense K2 H h)) b =
            some (vadd (vadd (dense K1 H x) (dense K2 H h)) b) := by
          rw [vaddChecked, if_pos (ls.trans hb.symm)]
        rw [CustomSimpleRNNCell.callVecChecked]
        simp only [e1, e2, e3, e4]
        rw [if_pos ⟨h1.1, h1.2, h2.1, h2.2, hb⟩]
        rfl
      · have e4 : vaddChecked (vadd (dense K1 H x) (dense K2 H h)) b = none := by
          rw [vaddChecked, if_neg]
          rw [ls]
          exact fun hc => hb hc.symm
        rw [CustomSimpleRNNCell.callVecChecked]
        simp only [e1, e2, e3, e4]
        rw [if_neg (fun hc => hb hc.2.2.2.2)]
    · have e2 : denseChecked K2 H h = none := by rw [denseChecked, if_neg h2]
      have e1 : denseChecked K1 H x = some (dense K1 H x) := by
        rw [denseChecked, if_pos h1]
      rw [CustomSimpleRNNCell.callVecChecked]
      simp only [e1, e2]
      rw [if_neg (fun hc => h2 ⟨hc.2.2.1, hc.2.2.2.1⟩)]
  · have e1 : denseChecked K1 H x = none := by rw [denseChecked, if_neg h1]
    rw [CustomSimpleRNNCell.callVecChecked]
    simp only [e1]
    rw [if_neg (fun hc => h1 ⟨hc.1, hc.2.1⟩)]

/-- C4: the per-example step function with the framework's shape checks
produces a result exactly when the input vector matches the first kernel,
the state vector matches the second kernel, and the bias has the state
dimension; on any mismatch it fails with no result, and on a match the
result is precisely the unchecked step value (nothing is silently
broadcast). -/
theorem cell_shape_mismatch_fails (c : CustomSimpleRNNCell) (x h : Vec) :
    ((c.callVecChecked x h).isSome ↔
      (x.length = c.kernelInput.length ∧ (∀ r ∈ c.kernelInput, r.length = c.units) ∧
        h.length = c.kernelHstate.length ∧ (∀ r ∈ c.kernelHstate, r.length = c.units) ∧
        c.bias.length = c.units)) ∧
    ∀ v, c.callVecChecked x h = some v → v = c.callVec x h := by
  constructor
  · rw [callVecChecked_eq]
    split_ifs with hc
    · simp only [Option.isSome_some, true_iff]
      exact hc
    · simp only [Option.isSome_none, Bool.false_eq_true, false_iff]
      exact hc
  · intro v hv
    rw [callVecChecked_eq] at hv
    split_ifs at hv with hc
    exact (Option.some.inj hv).symm

/-- Witness for C4: with 1×1 kernels, matching shapes succeed and the value
agrees with the unchecked step; a state vector of the wrong length fails. -/
theorem cell_shape_mismatch_fails_witness :
    (CustomSimpleRNNCell.callVecChecked ⟨1, [[1]], [[1]], [0]⟩ [2] [3]).isSome ∧
    CustomSimpleRNNCell.callVec ⟨1, [[1]], [[1]], [0]⟩ [2] [3] =
      CustomSimpleRNNCell.callVec ⟨1, [[1]], [[1]], [0]⟩ [2] [3] ∧
    ¬ (CustomSimpleRNNCell.callVecChecked ⟨1, [[1]], [[1]], [0]⟩ [2] []).isSome = true := by
  refine ⟨?_, ?_, ?_⟩
  · exact (cell_shape_mismatch_fails ⟨1, [[1]], [[1]], [0]⟩ [2] [3]).1.mpr
      ⟨rfl, by
        intro r hr
        simp only [List.mem_cons, List.not_mem_nil, or_false] at hr
        subst hr
        rfl, rfl, by
        intro r hr
        simp only [List.mem_cons, List.not_mem_nil, or_false] at hr
        subst hr
        rfl, rfl⟩
  · exact (cell_shape_mismatch_fails ⟨1, [[1]], [[1]], [0]⟩ [2] [3]).2
      (CustomSimpleRNNCell.callVec ⟨1, [[1]], [[1]], [0]⟩ [2] [3]) rfl
  · intro hs
    have hc := (cell_shape_mismatch_fails ⟨1, [[1]], [[1]], [0]⟩ [2] []).1.mp hs
    have h0 : ([] : Vec).length = ([[1]] : Mat).length := hc.2.2.1
    simp at h0

/-! ### The composite layer (claim C10) -/

/-- C10: in `CompositeLayer.call`, each layer is first invoked with the data
and the training flag; if that invocation raises any exception whatsoever,
the exception is discarded (the continuation does not depend on it) and the
layer is invoked once more with the data alone, after which the loop
continues with that fallback result; if the first invocation succeeds, its
value is used directly. -/
theorem composite_layer_masks_errors {α : Type} (layers : List (PyLayer α))
    (layer : PyLayer α) (x : α) (training : Bool) :
    (∀ e, layer.callTraining x training = Except.error e →
      CompositeLayer.call ⟨layer :: layers⟩ x training =
        match layer.callPlain x with
        | Except.ok y => CompositeLayer.call ⟨layers⟩ y training
        | Except.error e2 => Except.error e2) ∧
    (∀ y, layer.callTraining x training = Except.ok y →
      CompositeLayer.call ⟨layer :: layers⟩ x training =
        CompositeLayer.call ⟨layers⟩ y training) := by
  constructor
  · intro e he
    show CompositeLayer.callFrom (layer :: layers) x training = _
    rw [CompositeLayer.callFrom]
    rw [CompositeLayer.applyLayer, he]
    cases hp : layer.callPlain x <;> rfl
  · intro y hy
    show CompositeLayer.callFrom (layer :: layers) x training = _
    rw [CompositeLayer.callFrom]
    rw [CompositeLayer.applyLayer, hy]
    rfl

/-- Witness for C10: a single layer that raises `TypeError` when given the
training flag is re-invoked without the flag, and the composite call
returns the fallback value with the error masked. -/
theorem composite_layer_masks_errors_witness :
    CompositeLayer.call ⟨[incLayer]⟩ 5 true = Except.ok 6 := by
  have h := (composite_layer_masks_errors [] incLayer 5 true).1 PyError.typeError rfl
  rw [h]
  rfl

/-! ### Zero weights (claim C6) -/

theorem map_mul_zeros (xi : ℝ) (n : ℕ) : (zeros n).map (fun w => xi * w) = zeros n := by
  simp [zeros, List.map_replicate]

theorem vadd_zeros (n : ℕ) : vadd (zeros n) (zeros n) = zeros n := by
  induction n with
  | zero => rfl
  | succ n ih =>
    show (0 + 0 : ℝ) :: vadd (zeros n) (zeros n) = (0 : ℝ) :: zeros n
    rw [add_zero, ih]

theorem tanh_zeros (n : ℕ) : (zeros n).map Real.tanh = zeros n := by
  simp [zeros, List.map_replicate, Real.tanh_zero]

theorem dense_zeroKernel (H : ℕ) (x : Vec) (n : ℕ) :
    dense (zeroMat n H) H x = zeros H := by
  induction x generalizing n with
  | nil => rfl
  | cons xi xs ih =>
    cases n with
    | zero => rfl
    | succ n =>
      show vadd ((zeros H).map (fun w => xi * w)) (dense (zeroMat n H) H xs) = zeros H
      rw [map_mul_zeros, ih n]
      exact vadd_zeros H

theorem zipWith_vadd_replicate (n : ℕ) (a b : Vec) :
    List.zipWith vadd (List.replicate n a) (List.replicate n b) =
      List.replicate n (vadd a b) := by
  induction n with
  | zero => rfl
  | succ n ih =>
    show vadd a b :: List.zipWith vadd (List.replicate n a) (List.replicate n b) = _
    rw [ih]
    rfl

theorem map_const_vec (X : Mat) (z : Vec) :
    X.map (fun _ => z) = List.replicate X.length z := by
  induction X with
  | nil => rfl
  | cons r X ih =>
    show z :: X.map (fun _ => z) = _
    rw [ih]
    rfl

theorem cell_call_zero (D H B : ℕ) (X S : Mat) (hX : X.length = B) (hS : S.length = B) :
    CustomSimpleRNNCell.call ⟨H, zeroMat D H, zeroMat H H, zeros H⟩ X S = zeroMat B H := by
  have m1 : X.map (dense (zeroMat D H) H) = List.replicate B (zeros H) := by
    have : X.map (dense (zeroMat D H) H) = X.map (fun _ => zeros H) :=
      List.map_congr_left (fun a _ => dense_zeroKernel H a D)
    rw [this, map_const_vec, hX]
  have m2 : S.map (dense (zeroMat H H) H) = List.replicate B (zeros H) := by
    have : S.map (dense (zeroMat H H) H) = S.map (fun _ => zeros H) :=
      List.map_congr_left (fun a _ => dense_zeroKernel H a H)
    rw [this, map_const_vec, hS]
  show ((List.zipWith vadd (X.map (dense (zeroMat D H) H)) (S.map (dense (zeroMat H H) H))).map
      (fun row => vadd row (zeros H))).map (List.map Real.tanh) = zeroMat B H
  rw [m1, m2, zipWith_vadd_replicate, vadd_zeros, List.map_replicate, vadd_zeros,
    List.map_replicate, tanh_zeros]
  rfl

theorem finalState_zero (D H B : ℕ) (slices : List Mat)
    (hs : ∀ X ∈ slices, X.length = B) :
    finalState ⟨H, zeroMat D H, zeroMat H H, zeros H⟩ (zeroMat B H) slices = zeroMat B H := by
  induction slices with
  | nil => rfl
  | cons X rest ih =>
    show finalState ⟨H, zeroMat D H, zeroMat H H, zeros H⟩
      (CustomSimpleRNNCell.call ⟨H, zeroMat D H, zeroMat H H, zeros H⟩ X (zeroMat B H)) rest = _
    rw [cell_call_zero D H B X (zeroMat B H) (hs X (by simp)) (by simp [zeroMat])]
    exact ih (fun Y hY => hs Y (by simp [hY]))

theorem scanStates_zero (D H B : ℕ) (slices : List Mat)
    (hs : ∀ X ∈ slices, X.length = B) :
    scanStates ⟨H, zeroMat D H, zeroMat H H, zeros H⟩ (zeroMat B H) slices =
      List.replicate slices.length (zeroMat B H) := by
  induction slices with
  | nil => rfl
  | cons X rest ih =>
    show CustomSimpleRNNCell.call ⟨H, zeroMat D H, zeroMat H H, zeros H⟩ X (zeroMat B H) ::
      scanStates ⟨H, zeroMat D H, zeroMat H H, zeros H⟩
        (CustomSimpleRNNCell.call ⟨H, zeroMat D H, zeroMat H H, zeros H⟩ X (zeroMat B H)) rest = _
    rw [cell_call_zero D H B X (zeroMat B H) (hs X (by simp)) (by simp [zeroMat])]
    rw [ih (fun Y hY => hs Y (by simp [hY]))]
    rfl

/-- C6: with both weight kernels and the bias all zeros (any D and H, e.g.
H = 3, D = 2), for every input of every length, the final state the driver
returns is the zero matrix (each batch row the zero vector of length H),
and the state after every single time step is that same zero matrix,
because tanh 0 = 0. -/
theorem zero_weights_give_zero_states (D H : ℕ) (data : List (List Vec)) :
    RNNWrapper.call ⟨false, ⟨H, zeroMat D H, zeroMat H H, zeros H⟩⟩ data =
      Except.ok (Sum.inl (zeroMat data.length H)) ∧
    scanStates ⟨H, zeroMat D H, zeroMat H H, zeros H⟩ (zeroMat data.length H)
        (timeSlices data (shape1 data)) =
      List.replicate (shape1 data) (zeroMat data.length H) := by
  have hs : ∀ X ∈ timeSlices data (shape1 data), X.length = data.length := by
    intro X hX
    rcases List.mem_map.mp hX with ⟨t, _, rfl⟩
    simp [timeSlice]
  constructor
  · rw [call_false]
    show Except.ok (Sum.inl (finalState ⟨H, zeroMat D H, zeroMat H H, zeros H⟩
      (zeroMat data.length H) (timeSlices data (shape1 data)))) = _
    rw [finalState_zero D H data.length (timeSlices data (shape1 data)) hs]
  · rw [scanStates_zero D H data.length (timeSlices data (shape1 data)) hs]
    have : (timeSlices data (shape1 data)).length = shape1 data := by
      simp [timeSlices]
    rw [this]

/-! ### Prefix stability (claim C7) -/

/-- The per-step states depend only on the prefix of the inputs consumed so
far: input lists with equal `k`-prefixes yield state lists with equal
`k`-prefixes. -/
theorem scanStates_take (c : CustomSimpleRNNCell) (k : ℕ) :
    ∀ (l1 l2 : List Mat) (S : Mat), l1.take k = l2.take k →
      (scanStates c S l1).take k = (scanStates c S l2).take k := by
  induction k with
  | zero => intro l1 l2 S _; rfl
  | succ k ih =>
    intro l1 l2 S hpre
    cases l1 with
    | nil =>
      cases l2 with
      | nil => rfl
      | cons Y t2 => simp at hpre
    | cons X t1 =>
      cases l2 with
      | nil => simp at hpre
      | cons Y t2 =>
        simp only [List.take_succ_cons, List.cons.injEq] at hpre
        obtain ⟨rfl, htail⟩ := hpre
        show (c.call X S :: scanStates c (c.call X S) t1).take (k + 1) =
          (c.call X S :: scanStates c (c.call X S) t2).take (k + 1)
        rw [List.take_succ_cons, List.take_succ_cons, ih t1 t2 (c.call X S) htail]

/-- C7: for two inputs with the same batch size whose per-step slices agree
on the first `k` time steps (one extending or truncating the other), the
driver's per-step states agree on those first `k` time steps: changing only
the sequence length leaves the overlapping prefix of states unchanged. -/
theorem prefix_of_states_stable (c : CustomSimpleRNNCell)
    (data1 data2 : List (List Vec)) (k : ℕ)
    (hB : data1.length = data2.length)
    (hk1 : k ≤ shape1 data1) (hk2 : k ≤ shape1 data2)
    (hagree : ∀ t, t < k → timeSlice data1 t = timeSlice data2 t) :
    (scanStates c (zeroMat data1.length c.units) (timeSlices data1 (shape1 data1))).take k =
    (scanStates c (zeroMat data2.length c.units) (timeSlices data2 (shape1 data2))).take k := by
  rw [hB]
  apply scanStates_take
  rw [timeSlices, timeSlices, ← List.map_take, ← List.map_take,
    List.take_range, List.take_range, min_eq_left hk1, min_eq_left hk2]
  exact List.map_congr_left (fun t ht => hagree t (List.mem_range.mp ht))

/-- Witness for C7: a length-2 sequence and its length-3 extension produce
the same states at the two overlapping time steps. -/
theorem prefix_of_states_stable_witness :
    (scanStates ⟨1, [[1]], [[1]], [0]⟩ (zeroMat 1 1)
        (timeSlices [[[1], [2]]] (shape1 [[[1], [2]]]))).take 2 =
    (scanStates ⟨1, [[1]], [[1]], [0]⟩ (zeroMat 1 1)
        (timeSlices [[[1], [2], [3]]] (shape1 [[[1], [2], [3]]]))).take 2 := by
  have h := prefix_of_states_stable ⟨1, [[1]], [[1]], [0]⟩ [[[1], [2]]] [[[1], [2], [3]]] 2
    rfl (by decide) (by decide)
    (by intro t ht
        interval_cases t <;> rfl)
  exact h

/-! ### Batch independence (claim C8) -/

theorem length_cell_call (c : CustomSimpleRNNCell) (X S : Mat) :
    (c.call X S).length = min X.length S.length := by
  simp [CustomSimpleRNNCell.call]

/-- The batched cell acts on the rows of a concatenated batch exactly as it
acts on each part separately. -/
theorem cell_call_append (c : CustomSimpleRNNCell) (X1 S1 X2 S2 : Mat)
    (h1 : X1.length = S1.length) :
    c.call (X1 ++ X2) (S1 ++ S2) = c.call X1 S1 ++ c.call X2 S2 := by
  show ((List.zipWith vadd ((X1 ++ X2).map (dense c.kernelInput c.units))
      ((S1 ++ S2).map (dense c.kernelHstate c.units))).map (fun row => vadd row c.bias)).map
      (List.map Real.tanh) = _
  rw [List.map_append, List.map_append,
    List.zipWith_append _ _ _ _ _ (by simp [h1]),
    List.map_append, List.map_append]
  rfl

theorem zipWith_map_same {α β γ δ : Type} (f : β → γ → δ) (g : α → β) (h : α → γ)
    (l : List α) :
    List.zipWith f (l.map g) (l.map h) = l.map (fun a => f (g a) (h a)) := by
  induction l with
  | nil => rfl
  | cons a l ih =>
    show f (g a) (h a) :: List.zipWith f (l.map g) (l.map h) = _
    rw [ih]
    rfl

/-- Folding the cell over a batch-concatenated run of time slices computes
the concatenation of the two independent folds. -/
theorem finalState_append (c : CustomSimpleRNNCell) (slices1 : List Mat) :
    ∀ (slices2 : List Mat) (S1 S2 : Mat),
      slices1.length = slices2.length →
      (∀ X ∈ slices1, X.length = S1.length) →
      (∀ X ∈ slices2, X.length = S2.length) →
      finalState c (S1 ++ S2) (List.zipWith (fun A B => A ++ B) slices1 slices2) =
        finalState c S1 slices1 ++ finalState c S2 slices2 := by
  induction slices1 with
  | nil =>
    intro slices2 S1 S2 hlen _ _
    cases slices2 with
    | nil => rfl
    | cons Y t => simp at hlen
  | cons X1 rest1 ih =>
    intro slices2 S1 S2 hlen hA hB
    cases slices2 with
    | nil => simp at hlen
    | cons X2 rest2 =>
      show finalState c (c.call (X1 ++ X2) (S1 ++ S2))
        (List.zipWith (fun A B => A ++ B) rest1 rest2) = _
      rw [cell_call_append c X1 S1 X2 S2 (hA X1 (by simp))]
      have l1 : (c.call X1 S1).length = S1.length := by
        rw [length_cell_call, hA X1 (by simp), min_self]
      have l2 : (c.call X2 S2).length = S2.length := by
        rw [length_cell_call, hB X2 (by simp), min_self]
      exact ih rest2 (c.call X1 S1) (c.call X2 S2) (by simpa using hlen)
        (fun Y hY => (hA Y (by simp [hY])).trans l1.symm)
        (fun Y hY => (hB Y (by simp [hY])).trans l2.symm)

/-- C8: for two sequences of equal length, the driver run once on the batch
holding both rows is, rowwise, exactly the driver run on each sequence as
its own singleton batch — no cross-batch leakage; the statement holds for
every sequence length and every weights/bias, with no re-configuration. -/
theorem batch_rows_independent (c : CustomSimpleRNNCell) (s1 s2 : List Vec)
    (hlen : s1.length = s2.length) (m1 m2 : Mat)
    (h1 : RNNWrapper.call ⟨false, c⟩ [s1] = Except.ok (Sum.inl m1))
    (h2 : RNNWrapper.call ⟨false, c⟩ [s2] = Except.ok (Sum.inl m2)) :
    RNNWrapper.call ⟨false, c⟩ [s1, s2] = Except.ok (Sum.inl (m1 ++ m2)) := by
  rw [call_false] at h1 h2
  have e1 : finalState c (zeroMat 1 c.units) (timeSlices [s1] (shape1 [s1])) = m1 := by
    simpa only [Except.ok.injEq, Sum.inl.injEq, List.length_singleton] using h1
  have e2 : finalState c (zeroMat 1 c.units) (timeSlices [s2] (shape1 [s2])) = m2 := by
    simpa only [Except.ok.injEq, Sum.inl.injEq, List.length_singleton] using h2
  rw [call_false]
  refine congrArg _ (congrArg _ ?_)
  rw [← e1, ← e2]
  have hT1 : shape1 [s1] = s1.length := rfl
  have hT2 : shape1 [s2] = s2.length := rfl
  have hT12 : shape1 [s1, s2] = s1.length := rfl
  rw [hT1, hT2, hT12, ← hlen]
  have hz : zeroMat ([s1, s2].length) c.units = zeroMat 1 c.units ++ zeroMat 1 c.units := rfl
  rw [hz]
  have hsl : timeSlices [s1, s2] s1.length =
      List.zipWith (fun A B => A ++ B) (timeSlices [s1] s1.length)
        (timeSlices [s2] s1.length) := by
    rw [timeSlices, timeSlices, timeSlices, zipWith_map_same]
    exact List.map_congr_left (fun t _ => rfl)
  rw [hsl]
  apply finalState_append
  · simp [timeSlices]
  · intro X hX
    rcases List.mem_map.mp hX with ⟨t, _, rfl⟩
    simp [timeSlice, zeroMat, zeros]
  · intro X hX
    rcases List.mem_map.mp hX with ⟨t, _, rfl⟩
    simp [timeSlice, zeroMat, zeros]

/-- Witness for C8: two one-step sequences run as one batch give exactly the
two independent one-step results. -/
theorem batch_rows_independent_witness :
    RNNWrapper.call ⟨false, ⟨1, [[1]], [[1]], [0]⟩⟩ [[[1]], [[2]]] =
      Except.ok (Sum.inl
        (CustomSimpleRNNCell.call ⟨1, [[1]], [[1]], [0]⟩ [[1]] [[0]] ++
          CustomSimpleRNNCell.call ⟨1, [[1]], [[1]], [0]⟩ [[2]] [[0]])) :=
  batch_rows_independent ⟨1, [[1]], [[1]], [0]⟩ [[1]] [[2]] rfl
    (CustomSimpleRNNCell.call ⟨1, [[1]], [[1]], [0]⟩ [[1]] [[0]])
    (CustomSimpleRNNCell.call ⟨1, [[1]], [[1]], [0]⟩ [[2]] [[0]]) rfl rfl

/-! ### Initial state and statelessness (claim C9) -/

/-- C9 as written fails: `RNNWrapper.call(data, training)` has no
initial-state argument to supply.  On the concrete zero-length sequence the
code returns the zero state, which differs from what a driver started from
the supplied initial state `[[1]]` would return — the recurrence cannot be
started from any state but zero. -/
theorem no_initial_state_argument :
    RNNWrapper.call ⟨false, ⟨1, [[1]], [[1]], [0]⟩⟩ [[]] =
      Except.ok (Sum.inl [[(0 : ℝ)]]) ∧
    driverFromInit ⟨1, [[1]], [[1]], [0]⟩ [[(1 : ℝ)]] [[]] = [[(1 : ℝ)]] ∧
    RNNWrapper.call ⟨false, ⟨1, [[1]], [[1]], [0]⟩⟩ [[]] ≠
      Except.ok (Sum.inl (driverFromInit ⟨1, [[1]], [[1]], [0]⟩ [[(1 : ℝ)]] [[]])) := by
  refine ⟨rfl, rfl, ?_⟩
  intro hcontra
  have h : (Except.ok (Sum.inl [[(0 : ℝ)]]) : Except PyError (Mat ⊕ List Mat)) =
      Except.ok (Sum.inl [[(1 : ℝ)]]) := hcontra
  simp only [Except.ok.injEq, Sum.inl.injEq, List.cons.injEq, and_true] at h
  exact zero_ne_one h

/-- C9 amended: the driver takes no initial-state argument and always starts
the recurrence from the zero state of size `B × H`; it keeps no persistent
state between invocations (the object comes back unchanged, and a repeat
call on the same data returns the same output). -/
theorem driver_zero_init_and_stateless (self : RNNWrapper) (data : List (List Vec))
    (hmode : self.return_sequences = false) :
    (self.callState data).1 = self ∧
    (self.callState data).2 =
      Except.ok (Sum.inl (driverFromInit self.cell
        (zeroMat data.length self.cell.units) data)) ∧
    ((self.callState data).1.callState data).2 = (self.callState data).2 := by
  obtain ⟨rs, c⟩ := self
  cases hmode
  refine ⟨rfl, ?_, rfl⟩
  show RNNWrapper.call ⟨false, c⟩ data = _
  rw [call_false]
  rfl

/-- Witness for C9's amended statement on a concrete wrapper and input. -/
theorem driver_zero_init_and_stateless_witness :
    ((RNNWrapper.callState ⟨false, ⟨1, [[1]], [[1]], [0]⟩⟩ [[[1]]]).1 =
      (⟨false, ⟨1, [[1]], [[1]], [0]⟩⟩ : RNNWrapper)) ∧
    (RNNWrapper.callState ⟨false, ⟨1, [[1]], [[1]], [0]⟩⟩ [[[1]]]).2 =
      Except.ok (Sum.inl (driverFromInit ⟨1, [[1]], [[1]], [0]⟩ (zeroMat 1 1) [[[1]]])) ∧
    ((RNNWrapper.callState ⟨false, ⟨1, [[1]], [[1]], [0]⟩⟩ [[[1]]]).1.callState
      [[[1]]]).2 = (RNNWrapper.callState ⟨false, ⟨1, [[1]], [[1]], [0]⟩⟩ [[[1]]]).2 :=
  driver_zero_init_and_stateless ⟨false, ⟨1, [[1]], [[1]], [0]⟩⟩ [[[1]]] rfl

end
